import Mathlib

/-!
# Verification of `package.py` (strafe-jump-trainer release packaging script)

A shallow embedding of the 16-line packaging script `src/package.py`:

```python
 1 | import os, re, sys
 2 | from zipfile import ZipFile, ZIP_DEFLATED
 3 |
 4 | if len(sys.argv) != 2 or not re.fullmatch(r'\d+\.\d+\.\d+', sys.argv[1]):
 5 |     print("usage: package.py <version_number>")
 6 |     sys.exit(1)
 7 |
 8 | DST_PATH = 'strafe-jump-trainer-{}.zip'.format(sys.argv[1])
 9 | with ZipFile(DST_PATH, mode='x', compression=ZIP_DEFLATED) as z:
10 |     z.write('./LICENSE')
11 |     z.write('./README.md')
12 |     z.write('./pkg/strafe_tutorial_bg.d.ts')
13 |     z.write('./pkg/strafe_tutorial_bg.wasm')
14 |     z.write('./pkg/strafe_tutorial.d.ts')
15 |     z.write('./pkg/strafe_tutorial.js')
16 |     z.write('./static/index.html', arcname='./index.html')
```

Modelling choices, each tied to the concrete Python semantics:

* The filesystem is a finite association list from path strings to file data;
  a file is either a plain byte file or a zip archive (the script's output).
  An unreadable or missing source path is modelled as a path with no
  byte-file entry.
* `re.fullmatch(r'\d+\.\d+\.\d+', s)` is `fullmatchVer s`: the whole string
  splits into three nonempty digit runs separated by literal dots.  (Python's
  `\d` on `str` patterns also accepts non-ASCII Unicode decimal digits; the
  model restricts digits to ASCII `0`-`9`, which covers every version string
  the spec and claims mention.)
* `ZipFile(..., mode='x')` is exclusive create: it raises `FileExistsError`
  before writing anything when the target path already exists, and an
  uncaught Python exception terminates the process with exit status 1.
* `z.write(path)` reads the whole source file, deflate-compresses it and
  stores it under the arcname produced by `ZipInfo.from_file`, which runs
  `os.path.normpath` on the (default `arcname = path`) name — for the paths
  in this script that exactly strips the leading `./`.
* Deflate is modelled as a concrete executable codec (`deflate`/`inflate`)
  emitting RFC 1951 stored blocks: a legal, lossless deflate stream, proved
  to round-trip, standing in for zlib's compressor.
* If a `z.write` raises (source file missing), the `with` block still closes
  the archive, so all entries written before the failing one remain on disk;
  the process then dies with exit status 1.

Process outcome = exit code, standard-output lines, and resulting filesystem.
-/

namespace PackagePy

/-- One `\d+` run: count the leading ASCII digits and return the rest. -/
def spanDigits : List Char → Nat × List Char
  | [] => (0, [])
  | c :: cs =>
    if c.isDigit then
      let r := spanDigits cs
      (r.1 + 1, r.2)
    else (0, c :: cs)

/-- `re.fullmatch(r'\d+\.\d+\.\d+', s)` as a Boolean: the entire string is
three nonempty ASCII-digit runs separated by literal dots. -/
def fullmatchVer (s : String) : Bool :=
  let p1 := spanDigits s.toList
  match p1.2 with
  | '.' :: t1 =>
    let p2 := spanDigits t1
    match p2.2 with
    | '.' :: t2 =>
      let p3 := spanDigits t2
      decide (0 < p1.1) && decide (0 < p2.1) && decide (0 < p3.1) && p3.2.isEmpty
    | _ => false
  | _ => false

/-- `'strafe-jump-trainer-{}.zip'.format(v)` — the output path, with the
version string interpolated verbatim. -/
def DST_PATH (v : String) : String :=
  "strafe-jump-trainer-" ++ v ++ ".zip"

/-- The usage line printed by the argv guard. -/
def usageMessage : String := "usage: package.py <version_number>"

/-- A deflate stream made of RFC 1951 stored blocks (`BTYPE = 00`): each
block is a header byte (`BFINAL` in the low bit, the other header bits and
padding zero), `LEN` little-endian, `NLEN = LEN xor 0xFFFF`, then `LEN`
literal bytes; non-final blocks carry the stored-block maximum of 65535
bytes.  Structural recursion on a fuel bound for the number of non-final
blocks; `deflate` supplies ample fuel. -/
def deflateAux : Nat → List Nat → List Nat
  | fuel, data =>
    if data.length ≤ 65535 then
      let lo := data.length % 256
      let hi := data.length / 256
      [1, lo, hi, 255 - lo, 255 - hi] ++ data
    else
      match fuel with
      | 0 => []
      | f + 1 => [0, 255, 255, 0, 0] ++ data.take 65535 ++ deflateAux f (data.drop 65535)

/-- The model of zlib's deflate compressor: a legal, lossless RFC 1951
stream of stored blocks. -/
def deflate (data : List Nat) : List Nat :=
  deflateAux data.length data

/-- Decoder for stored-block deflate streams; `none` on a malformed stream.
Fuel bounds the number of non-final blocks; each block consumes at least
five bytes, so `inflate` feeds the input length as fuel. -/
def inflateAux : Nat → List Nat → Option (List Nat)
  | fuel, bfinal :: lo :: hi :: nlo :: nhi :: rest =>
    let len := lo + 256 * hi
    if nlo = 255 - lo ∧ nhi = 255 - hi ∧ len ≤ rest.length then
      if bfinal = 1 then
        if rest.length = len then some rest else none
      else
        match fuel with
        | 0 => none
        | f + 1 =>
          match inflateAux f (rest.drop len) with
          | some tail => some (rest.take len ++ tail)
          | none => none
    else none
  | _, _ => none

/-- Decompression of a deflate stream. -/
def inflate (l : List Nat) : Option (List Nat) :=
  inflateAux l.length l

/-- A zip central-directory entry as `z.write` produces it: the stored entry
name, the deflate-compressed payload, and the compression method
(`ZIP_DEFLATED = 8`). -/
structure ZipEntry where
  arcname : String
  compressed : List Nat
  method : Nat
deriving DecidableEq

/-- Extracting an entry: inflate its payload. -/
def extractEntry (e : ZipEntry) : Option (List Nat) :=
  if e.method = 8 then inflate e.compressed else none

/-- File data on disk: a plain byte file, or a zip archive (the script's
output, kept structured rather than serialized). -/
inductive FData
  | bytes (content : List Nat)
  | zip (entries : List ZipEntry)
deriving DecidableEq

/-- The filesystem: a finite association list from paths to file data. -/
abbrev FS := List (String × FData)

def lookupFS (fs : FS) (p : String) : Option FData :=
  match fs.find? (fun e => e.1 == p) with
  | some e => some e.2
  | none => none

/-- Reading a source file's bytes; `none` when the path is absent (Python's
`FileNotFoundError`) or not a readable byte file. -/
def readBytes (fs : FS) (p : String) : Option (List Nat) :=
  match lookupFS fs p with
  | some (FData.bytes b) => some b
  | _ => none

/-- `ZipInfo.from_file` arcname normalization: `os.path.normpath` strips the
leading `./` from every path this script passes to `z.write`. -/
def normalizeArcname (s : String) : String :=
  match s.toList with
  | '.' :: '/' :: rest => String.mk rest
  | _ => s

/-- The fixed manifest: the seven `z.write` calls in source order, as
(source path, arcname) pairs; `arcname` defaults to the path except for the
final call's explicit `arcname='./index.html'`. -/
def manifest : List (String × String) :=
  [("./LICENSE", "./LICENSE"),
   ("./README.md", "./README.md"),
   ("./pkg/strafe_tutorial_bg.d.ts", "./pkg/strafe_tutorial_bg.d.ts"),
   ("./pkg/strafe_tutorial_bg.wasm", "./pkg/strafe_tutorial_bg.wasm"),
   ("./pkg/strafe_tutorial.d.ts", "./pkg/strafe_tutorial.d.ts"),
   ("./pkg/strafe_tutorial.js", "./pkg/strafe_tutorial.js"),
   ("./static/index.html", "./index.html")]

/-- The entry a successful `z.write` appends for one manifest pair. -/
def entryOf (fs : FS) (p : String × String) : ZipEntry :=
  ZipEntry.mk (normalizeArcname p.2) (deflate ((readBytes fs p.1).getD [])) 8

/-- The sequence of `z.write` calls: entries accumulate in call order; the
first unreadable source aborts the run, returning the entries already
written together with the offending path. -/
def writeEntries (fs : FS) (acc : List ZipEntry) :
    List (String × String) → List ZipEntry × Option String
  | [] => (acc, none)
  | (src, arc) :: rest =>
    match readBytes fs src with
    | none => (acc, some src)
    | some b =>
      writeEntries fs (acc ++ [ZipEntry.mk (normalizeArcname arc) (deflate b) 8]) rest

/-- Process outcome: exit status, stdout lines, filesystem after the run. -/
structure Outcome where
  exitCode : Nat
  stdout : List String
  fs : FS
deriving DecidableEq

/-- The `with ZipFile(DST_PATH, mode='x', ...)` block for version string `v`:
exclusive create fails (uncaught `FileExistsError`, exit 1, filesystem
untouched) when the target exists; otherwise the seven writes run in order,
and on a write failure the entries already written remain on disk in the
closed, incomplete archive while the process exits 1. -/
def createArchive (v : String) (fs : FS) : Outcome :=
  let dst := DST_PATH v
  if (lookupFS fs dst).isSome then
    { exitCode := 1, stdout := [], fs := fs }
  else
    match writeEntries fs [] manifest with
    | (entries, none) => { exitCode := 0, stdout := [], fs := (dst, FData.zip entries) :: fs }
    | (entries, some _) => { exitCode := 1, stdout := [], fs := (dst, FData.zip entries) :: fs }

/-- The whole script on `sys.argv` (script name included): the guard
`len(sys.argv) != 2 or not re.fullmatch(...)` prints the usage line and
exits 1; otherwise the archive is produced. -/
def run (argv : List String) (fs : FS) : Outcome :=
  match argv with
  | [_, v] =>
    if fullmatchVer v then createArchive v fs
    else { exitCode := 1, stdout := [usageMessage], fs := fs }
  | _ => { exitCode := 1, stdout := [usageMessage], fs := fs }

/-- The entry list of the archive at path `p` after a run; `[]` when no
archive is there. -/
def archiveEntries (o : Outcome) (p : String) : List ZipEntry :=
  match lookupFS o.fs p with
  | some (FData.zip es) => es
  | _ => []

/-- Modelled from the spec: the repository's environment-variable packaging
variant is not under `src/` (only the validated command-line variant is;
its unused `import os` is the remnant).  Per spec sections 4.1, 6 and 7 it
reads one fixed CI-provided tag variable, performs no validation, splices
the raw value into the output filename, and dies with an unhandled error —
a non-zero exit, no usage message, no file — when the variable is unset. -/
def runEnv (env : List (String × String)) (fs : FS) : Outcome :=
  match (env.find? (fun e => e.1 == "TRAVIS_TAG")).map (fun e => e.2) with
  | none => { exitCode := 1, stdout := [], fs := fs }
  | some v => createArchive v fs

/-- A demonstration filesystem holding all seven manifest source files. -/
def demoFS : FS :=
  [("./LICENSE", FData.bytes [77, 73, 84]),
   ("./README.md", FData.bytes [35, 32, 115, 116]),
   ("./pkg/strafe_tutorial_bg.d.ts", FData.bytes [100, 116, 115]),
   ("./pkg/strafe_tutorial_bg.wasm", FData.bytes [0, 97, 115, 109]),
   ("./pkg/strafe_tutorial.d.ts", FData.bytes [101]),
   ("./pkg/strafe_tutorial.js", FData.bytes [106, 115]),
   ("./static/index.html", FData.bytes [60, 104, 116, 109, 108, 62])]

/-- `demoFS` with the wasm artifact missing: the fourth `z.write` fails. -/
def demoFSnoWasm : FS :=
  [("./LICENSE", FData.bytes [77, 73, 84]),
   ("./README.md", FData.bytes [35, 32, 115, 116]),
   ("./pkg/strafe_tutorial_bg.d.ts", FData.bytes [100, 116, 115]),
   ("./pkg/strafe_tutorial.d.ts", FData.bytes [101]),
   ("./pkg/strafe_tutorial.js", FData.bytes [106, 115]),
   ("./static/index.html", FData.bytes [60, 104, 116, 109, 108, 62])]

/-! ## Basic lemmas about the embedding -/

/-- Unfolding lemma for `deflateAux`. -/
theorem deflateAux_eq (fuel : Nat) (d : List Nat) :
    deflateAux fuel d =
      if d.length ≤ 65535 then
        [1, d.length % 256, d.length / 256,
          255 - d.length % 256, 255 - d.length / 256] ++ d
      else
        match fuel with
        | 0 => []
        | f + 1 => [0, 255, 255, 0, 0] ++ d.take 65535 ++ deflateAux f (d.drop 65535) := by
  cases fuel <;> rfl

/-- A final stored block for data fitting in one block, any fuel. -/
theorem deflateAux_small (fuel : Nat) (d : List Nat) (h : d.length ≤ 65535) :
    deflateAux fuel d =
      [1, d.length % 256, d.length / 256,
        255 - d.length % 256, 255 - d.length / 256] ++ d := by
  rw [deflateAux_eq, if_pos h]

/-- A non-final maximal stored block followed by the rest of the stream. -/
theorem deflateAux_succ_big (f : Nat) (d : List Nat) (h : ¬ d.length ≤ 65535) :
    deflateAux (f + 1) d =
      [0, 255, 255, 0, 0] ++ d.take 65535 ++ deflateAux f (d.drop 65535) := by
  rw [deflateAux_eq, if_neg h]

/-- Unfolding lemma for `inflateAux` on a five-byte block header. -/
theorem inflateAux_cons_eq (fuel b lo hi nlo nhi : Nat) (rest : List Nat) :
    inflateAux fuel (b :: lo :: hi :: nlo :: nhi :: rest) =
      if nlo = 255 - lo ∧ nhi = 255 - hi ∧ lo + 256 * hi ≤ rest.length then
        if b = 1 then
          if rest.length = lo + 256 * hi then some rest else none
        else
          match fuel with
          | 0 => none
          | f + 1 =>
            match inflateAux f (rest.drop (lo + 256 * hi)) with
            | some tail => some (rest.take (lo + 256 * hi) ++ tail)
            | none => none
      else none := by
  cases fuel <;> rfl

/-- Unfolding lemma for `inflateAux` with nonzero fuel, the inner fuel
match already reduced. -/
theorem inflateAux_cons_succ_eq (f b lo hi nlo nhi : Nat) (rest : List Nat) :
    inflateAux (f + 1) (b :: lo :: hi :: nlo :: nhi :: rest) =
      if nlo = 255 - lo ∧ nhi = 255 - hi ∧ lo + 256 * hi ≤ rest.length then
        if b = 1 then
          if rest.length = lo + 256 * hi then some rest else none
        else
          match inflateAux f (rest.drop (lo + 256 * hi)) with
          | some tail => some (rest.take (lo + 256 * hi) ++ tail)
          | none => none
      else none := rfl

/-- With enough fuel the encoded stream is no shorter than the data. -/
theorem deflateAux_length_ge (fuel : Nat) :
    ∀ d : List Nat, d.length ≤ 65535 + 65535 * fuel →
      d.length ≤ (deflateAux fuel d).length := by
  induction fuel with
  | zero =>
    intro d hd
    have hsmall : d.length ≤ 65535 := by omega
    rw [deflateAux_small 0 d hsmall]
    simp; omega
  | succ f ih =>
    intro d hd
    by_cases hsmall : d.length ≤ 65535
    · rw [deflateAux_small _ d hsmall]; simp; omega
    · rw [deflateAux_succ_big f d hsmall]
      have hrec := ih (d.drop 65535) (by simp [List.length_drop]; omega)
      simp only [List.length_append, List.length_take, List.length_drop,
        List.length_cons, List.length_nil] at hrec ⊢
      omega

/-- Any fuel decodes a single final stored block. -/
theorem inflateAux_deflate_small (fi fd : Nat) (d : List Nat)
    (h : d.length ≤ 65535) :
    inflateAux fi (deflateAux fd d) = some d := by
  rw [deflateAux_small fd d h]
  simp only [List.cons_append, List.nil_append]
  rw [inflateAux_cons_eq]
  have hmd : d.length % 256 + 256 * (d.length / 256) = d.length :=
    Nat.mod_add_div _ _
  simp [hmd]

/-- Decoding inverts encoding, given fuel bounds covering the block count. -/
theorem inflateAux_deflateAux (fd : Nat) :
    ∀ d : List Nat, d.length ≤ 65535 + 65535 * fd →
    ∀ fi : Nat, fd ≤ fi →
      inflateAux fi (deflateAux fd d) = some d := by
  induction fd with
  | zero =>
    intro d hd fi _
    exact inflateAux_deflate_small fi 0 d (by omega)
  | succ f ih =>
    intro d hd fi hfi
    by_cases hsmall : d.length ≤ 65535
    · exact inflateAux_deflate_small fi (f + 1) d hsmall
    · obtain ⟨g, rfl⟩ : ∃ g, fi = g + 1 := ⟨fi - 1, by omega⟩
      rw [deflateAux_succ_big f d hsmall]
      have htake : (d.take 65535).length = 65535 := by
        simp [List.length_take]; omega
      simp only [List.cons_append, List.nil_append, List.append_assoc]
      have hlen : (255 : Nat) + 256 * 255 = 65535 := by norm_num
      have hrest : 65535 ≤ (d.take 65535 ++ deflateAux f (d.drop 65535)).length := by
        simp [List.length_append, htake]
      have hdropr : (d.take 65535 ++ deflateAux f (d.drop 65535)).drop 65535
          = deflateAux f (d.drop 65535) := List.drop_left' htake
      have htaker : (d.take 65535 ++ deflateAux f (d.drop 65535)).take 65535
          = d.take 65535 := List.take_left' htake
      have hih : inflateAux g (deflateAux f (d.drop 65535)) = some (d.drop 65535) :=
        ih (d.drop 65535) (by simp [List.length_drop]; omega) g (by omega)
      have h01 : ¬ (0 : Nat) = 1 := by omega
      rw [inflateAux_cons_succ_eq, hlen]
      rw [if_pos (And.intro (by norm_num) (And.intro (by norm_num) hrest)), if_neg h01]
      rw [hdropr, hih, htaker]
      simp [List.take_append_drop]

/-- The model codec is lossless: inflating a deflated stream recovers the
original bytes. -/
theorem inflate_deflate (d : List Nat) : inflate (deflate d) = some d := by
  unfold inflate deflate
  exact inflateAux_deflateAux d.length d (by omega) _
    (deflateAux_length_ge d.length d (by omega))

/-- A freshly written file is found at its own path. -/
theorem lookupFS_cons_self (fs : FS) (p : String) (d : FData) :
    lookupFS ((p, d) :: fs) p = some d := by
  simp [lookupFS, List.find?]

/-- When every source in the list is readable, the writes all succeed, in
order, appending one entry per manifest pair. -/
theorem writeEntries_ok (fs : FS) :
    ∀ (m : List (String × String)) (acc : List ZipEntry),
      (∀ p ∈ m, (readBytes fs p.1).isSome) →
      writeEntries fs acc m = (acc ++ m.map (entryOf fs), none) := by
  intro m
  induction m with
  | nil => intro acc _; simp [writeEntries]
  | cons p rest ih =>
    intro acc h
    obtain ⟨src, arc⟩ := p
    have hs : (readBytes fs src).isSome := h (src, arc) (List.mem_cons_self _ _)
    obtain ⟨b, hb⟩ := Option.isSome_iff_exists.mp hs
    simp only [writeEntries, hb]
    rw [ih _ (fun q hq => h q (List.mem_cons_of_mem _ hq))]
    simp [entryOf, hb, List.append_assoc]

/-- The first unreadable source stops the write sequence: exactly the
entries for the readable preceding pairs are produced, and the offending
path is reported. -/
theorem writeEntries_split (fs : FS) (src arc : String)
    (m2 : List (String × String)) (hmiss : readBytes fs src = none) :
    ∀ (m1 : List (String × String)) (acc : List ZipEntry),
      (∀ p ∈ m1, (readBytes fs p.1).isSome) →
      writeEntries fs acc (m1 ++ (src, arc) :: m2)
        = (acc ++ m1.map (entryOf fs), some src) := by
  intro m1
  induction m1 with
  | nil => intro acc _; simp [writeEntries, hmiss]
  | cons p rest ih =>
    intro acc h
    obtain ⟨s1, a1⟩ := p
    have hs : (readBytes fs s1).isSome := h (s1, a1) (List.mem_cons_self _ _)
    obtain ⟨b, hb⟩ := Option.isSome_iff_exists.mp hs
    simp only [List.cons_append, writeEntries, hb, List.append_eq]
    rw [ih _ (fun q hq => h q (List.mem_cons_of_mem _ hq))]
    simp [entryOf, hb, List.append_assoc]

/-- A run with no target collision and all sources readable produces the
archive with one entry per manifest pair, in manifest order. -/
theorem createArchive_ok (v : String) (fs : FS)
    (hno : lookupFS fs (DST_PATH v) = none)
    (hsrc : ∀ p ∈ manifest, (readBytes fs p.1).isSome) :
    createArchive v fs
      = Outcome.mk 0 [] ((DST_PATH v, FData.zip (manifest.map (entryOf fs))) :: fs) := by
  unfold createArchive
  rw [writeEntries_ok fs manifest [] hsrc]
  simp [hno]

/-- The guarded script on a valid single argument is `createArchive`. -/
theorem run_valid (s v : String) (fs : FS)
    (hv : fullmatchVer v = true)
    (hno : lookupFS fs (DST_PATH v) = none)
    (hsrc : ∀ p ∈ manifest, (readBytes fs p.1).isSome) :
    run [s, v] fs
      = Outcome.mk 0 [] ((DST_PATH v, FData.zip (manifest.map (entryOf fs))) :: fs) := by
  simp only [run, hv, if_true]
  exact createArchive_ok v fs hno hsrc

/-- The archive produced by a successful run, as an entry list. -/
theorem archiveEntries_run_valid (s v : String) (fs : FS)
    (hv : fullmatchVer v = true)
    (hno : lookupFS fs (DST_PATH v) = none)
    (hsrc : ∀ p ∈ manifest, (readBytes fs p.1).isSome) :
    archiveEntries (run [s, v] fs) (DST_PATH v) = manifest.map (entryOf fs) := by
  rw [run_valid s v fs hv hno hsrc]
  simp [archiveEntries, lookupFS_cons_self]

/-- Entry names depend only on the manifest, not on file contents. -/
theorem entry_names (fs : FS) :
    (manifest.map (entryOf fs)).map ZipEntry.arcname
      = manifest.map (fun p => normalizeArcname p.2) := by
  rw [List.map_map]
  rfl

/-- The concrete entry-name list of every successful run. -/
theorem entry_names_concrete (fs : FS) :
    (manifest.map (entryOf fs)).map ZipEntry.arcname
      = ["LICENSE", "README.md", "pkg/strafe_tutorial_bg.d.ts",
         "pkg/strafe_tutorial_bg.wasm", "pkg/strafe_tutorial.d.ts",
         "pkg/strafe_tutorial.js", "index.html"] := by
  rw [entry_names]
  decide

example : fullmatchVer "1.0.0" = true := by decide
example : fullmatchVer "1.2" = false := by decide
example : fullmatchVer "v1.2.3" = false := by decide
example : fullmatchVer "" = false := by decide
example : fullmatchVer "1.2.3.4" = false := by decide
example : normalizeArcname "./LICENSE" = "LICENSE" := by decide
example : inflate (deflate [1, 2, 3]) = some [1, 2, 3] := by decide
example : (run ["package.py", "1.0.0"] demoFS).exitCode = 0 := by decide
example : (archiveEntries (run ["package.py", "1.0.0"] demoFS)
    (DST_PATH "1.0.0")).length = 7 := by decide

/-! ## The claims -/

/-- C1: for every command-line invocation with exactly one argument fully
matching `\d+\.\d+\.\d+` (given the seven source files readable and no
pre-existing target, the error cases other claims cover), the script exits
with status 0 and creates a file named exactly
`strafe-jump-trainer-<version>.zip` with the argument interpolated
verbatim. -/
theorem cmdline_valid_version_creates_archive (s v : String) (fs : FS)
    (hv : fullmatchVer v = true)
    (hno : lookupFS fs (DST_PATH v) = none)
    (hsrc : ∀ p ∈ manifest, (readBytes fs p.1).isSome) :
    (run [s, v] fs).exitCode = 0 ∧
    DST_PATH v = "strafe-jump-trainer-" ++ v ++ ".zip" ∧
    ∃ es, lookupFS (run [s, v] fs).fs (DST_PATH v) = some (FData.zip es) := by
  rw [run_valid s v fs hv hno hsrc]
  exact ⟨rfl, rfl, manifest.map (entryOf fs),
    lookupFS_cons_self fs (DST_PATH v) (FData.zip (manifest.map (entryOf fs)))⟩

/-- C1 witness: version `1.0.0` on a filesystem with all seven sources. -/
theorem cmdline_valid_version_creates_archive_witness :
    (run ["package.py", "1.0.0"] demoFS).exitCode = 0 ∧
    DST_PATH "1.0.0" = "strafe-jump-trainer-" ++ "1.0.0" ++ ".zip" ∧
    ∃ es, lookupFS (run ["package.py", "1.0.0"] demoFS).fs (DST_PATH "1.0.0")
      = some (FData.zip es) :=
  cmdline_valid_version_creates_archive "package.py" "1.0.0" demoFS
    (by decide) (by decide) (by decide)

/-- C2: when the version argument is missing or does not fully match the
pattern, the script prints `usage: package.py <version_number>`, exits with
status 1, and leaves the filesystem unchanged (no archive created). -/
theorem cmdline_invalid_version_prints_usage (s v : String) (fs : FS)
    (hv : fullmatchVer v = false) :
    run [s, v] fs = Outcome.mk 1 [usageMessage] fs ∧
    run [s] fs = Outcome.mk 1 [usageMessage] fs ∧
    usageMessage = "usage: package.py <version_number>" := by
  refine ⟨by simp [run, hv], ?_, rfl⟩
  rfl

/-- C2 witness: argument `1.2` (also one of the claim's examples). -/
theorem cmdline_invalid_version_prints_usage_witness :
    run ["package.py", "1.2"] demoFS = Outcome.mk 1 [usageMessage] demoFS ∧
    run ["package.py"] demoFS = Outcome.mk 1 [usageMessage] demoFS ∧
    usageMessage = "usage: package.py <version_number>" :=
  cmdline_invalid_version_prints_usage "package.py" "1.2" demoFS (by decide)

/-- C3 counterexample: on a concrete successful run the archive's stored
entry names are `LICENSE`, `README.md`, ... — the `./`-prefixed manifest
paths the claim states do not occur; in particular no entry is named
`./LICENSE`. -/
theorem archive_names_not_dot_slash_cex :
    (archiveEntries (run ["package.py", "1.0.0"] demoFS) (DST_PATH "1.0.0")).map
        ZipEntry.arcname
      = ["LICENSE", "README.md", "pkg/strafe_tutorial_bg.d.ts",
         "pkg/strafe_tutorial_bg.wasm", "pkg/strafe_tutorial.d.ts",
         "pkg/strafe_tutorial.js", "index.html"] ∧
    ¬ "./LICENSE" ∈ (archiveEntries (run ["package.py", "1.0.0"] demoFS)
        (DST_PATH "1.0.0")).map ZipEntry.arcname := by
  constructor
  · decide
  · decide

/-- C3 (amended): on a successful run with all seven sources readable, the
archive holds exactly seven deflate entries whose names are the manifest
source paths with the leading `./` stripped, the static HTML file appearing
as `index.html` at the archive root. -/
theorem archive_has_seven_deflate_entries (s v : String) (fs : FS)
    (hv : fullmatchVer v = true)
    (hno : lookupFS fs (DST_PATH v) = none)
    (hsrc : ∀ p ∈ manifest, (readBytes fs p.1).isSome) :
    (archiveEntries (run [s, v] fs) (DST_PATH v)).length = 7 ∧
    (∀ e ∈ archiveEntries (run [s, v] fs) (DST_PATH v), e.method = 8) ∧
    (archiveEntries (run [s, v] fs) (DST_PATH v)).map ZipEntry.arcname
      = ["LICENSE", "README.md", "pkg/strafe_tutorial_bg.d.ts",
         "pkg/strafe_tutorial_bg.wasm", "pkg/strafe_tutorial.d.ts",
         "pkg/strafe_tutorial.js", "index.html"] := by
  rw [archiveEntries_run_valid s v fs hv hno hsrc]
  refine ⟨by simp [manifest], ?_, entry_names_concrete fs⟩
  intro e he
  obtain ⟨p, _, rfl⟩ := List.mem_map.mp he
  rfl

/-- C3 amended witness: the concrete run on `demoFS`. -/
theorem archive_has_seven_deflate_entries_witness :
    (archiveEntries (run ["package.py", "1.0.0"] demoFS) (DST_PATH "1.0.0")).length = 7 ∧
    (archiveEntries (run ["package.py", "1.0.0"] demoFS) (DST_PATH "1.0.0")).map
        ZipEntry.arcname
      = ["LICENSE", "README.md", "pkg/strafe_tutorial_bg.d.ts",
         "pkg/strafe_tutorial_bg.wasm", "pkg/strafe_tutorial.d.ts",
         "pkg/strafe_tutorial.js", "index.html"] := by
  have h := archive_has_seven_deflate_entries "package.py" "1.0.0" demoFS
    (by decide) (by decide) (by decide)
  exact ⟨h.1, h.2.2⟩

/-- C4: round-trip — for each manifest pair present in the sources, the
produced archive holds an entry under the normalized arcname whose
decompression yields byte-for-byte the source file's content at packaging
time. -/
theorem archive_entry_roundtrip (s v : String) (fs : FS)
    (hv : fullmatchVer v = true)
    (hno : lookupFS fs (DST_PATH v) = none)
    (hsrc : ∀ p ∈ manifest, (readBytes fs p.1).isSome)
    (src arc : String) (hmem : (src, arc) ∈ manifest)
    (b : List Nat) (hb : readBytes fs src = some b) :
    ∃ e ∈ archiveEntries (run [s, v] fs) (DST_PATH v),
      e.arcname = normalizeArcname arc ∧ extractEntry e = some b := by
  rw [archiveEntries_run_valid s v fs hv hno hsrc]
  refine ⟨entryOf fs (src, arc), List.mem_map_of_mem _ hmem, rfl, ?_⟩
  simp [entryOf, extractEntry, hb, inflate_deflate]

/-- C4 witness: the `./LICENSE` entry of the concrete run decompresses to
the source bytes. -/
theorem archive_entry_roundtrip_witness :
    ∃ e ∈ archiveEntries (run ["package.py", "1.0.0"] demoFS) (DST_PATH "1.0.0"),
      e.arcname = normalizeArcname "./LICENSE" ∧ extractEntry e = some [77, 73, 84] :=
  archive_entry_roundtrip "package.py" "1.0.0" demoFS (by decide) (by decide) (by decide)
    "./LICENSE" "./LICENSE" (by decide) [77, 73, 84] (by decide)

/-- C5: exclusive create — when a file already exists at the target path,
the run fails (exit 1, the uncaught `FileExistsError`) and the pre-existing
file's contents are left unchanged. -/
theorem target_collision_fails_untouched (s v : String) (fs : FS) (d : FData)
    (hv : fullmatchVer v = true)
    (hex : lookupFS fs (DST_PATH v) = some d) :
    run [s, v] fs = Outcome.mk 1 [] fs ∧
    lookupFS (run [s, v] fs).fs (DST_PATH v) = some d := by
  have h1 : run [s, v] fs = Outcome.mk 1 [] fs := by
    simp [run, hv, createArchive, hex]
  exact ⟨h1, by rw [h1]; exact hex⟩

/-- C5 witness: a pre-existing `strafe-jump-trainer-1.0.0.zip`. -/
theorem target_collision_fails_untouched_witness :
    run ["package.py", "1.0.0"]
        (("strafe-jump-trainer-1.0.0.zip", FData.bytes [80, 75, 5, 6]) :: demoFS)
      = Outcome.mk 1 []
        (("strafe-jump-trainer-1.0.0.zip", FData.bytes [80, 75, 5, 6]) :: demoFS) ∧
    lookupFS (run ["package.py", "1.0.0"]
        (("strafe-jump-trainer-1.0.0.zip", FData.bytes [80, 75, 5, 6]) :: demoFS)).fs
        (DST_PATH "1.0.0")
      = some (FData.bytes [80, 75, 5, 6]) :=
  target_collision_fails_untouched "package.py" "1.0.0"
    (("strafe-jump-trainer-1.0.0.zip", FData.bytes [80, 75, 5, 6]) :: demoFS)
    (FData.bytes [80, 75, 5, 6]) (by decide) (by decide)

/-- C6: partial failure — when the manifest splits as `m1 ++ (src, _) :: m2`
with every source in `m1` readable and `src` missing, the run fails with
exit status 1 and the archive left on disk contains exactly the entries for
`m1`, written before the failing one; there is no rollback. -/
theorem missing_source_partial_archive (s v : String) (fs : FS)
    (m1 m2 : List (String × String)) (src arc : String)
    (hv : fullmatchVer v = true)
    (hno : lookupFS fs (DST_PATH v) = none)
    (hsplit : manifest = m1 ++ (src, arc) :: m2)
    (hm1 : ∀ p ∈ m1, (readBytes fs p.1).isSome)
    (hmiss : readBytes fs src = none) :
    (run [s, v] fs).exitCode = 1 ∧
    lookupFS (run [s, v] fs).fs (DST_PATH v)
      = some (FData.zip (m1.map (entryOf fs))) := by
  have h1 : run [s, v] fs
      = Outcome.mk 1 [] ((DST_PATH v, FData.zip (m1.map (entryOf fs))) :: fs) := by
    simp only [run, hv, if_true, createArchive]
    rw [hsplit, writeEntries_split fs src arc m2 hmiss m1 [] hm1]
    simp [hno]
  rw [h1]
  exact ⟨rfl, lookupFS_cons_self fs _ _⟩

/-- C6 witness: the wasm artifact missing; the three entries written before
it remain in the incomplete archive. -/
theorem missing_source_partial_archive_witness :
    (run ["package.py", "1.0.0"] demoFSnoWasm).exitCode = 1 ∧
    lookupFS (run ["package.py", "1.0.0"] demoFSnoWasm).fs (DST_PATH "1.0.0")
      = some (FData.zip ([("./LICENSE", "./LICENSE"), ("./README.md", "./README.md"),
          ("./pkg/strafe_tutorial_bg.d.ts", "./pkg/strafe_tutorial_bg.d.ts")].map
          (entryOf demoFSnoWasm))) :=
  missing_source_partial_archive "package.py" "1.0.0" demoFSnoWasm
    [("./LICENSE", "./LICENSE"), ("./README.md", "./README.md"),
     ("./pkg/strafe_tutorial_bg.d.ts", "./pkg/strafe_tutorial_bg.d.ts")]
    [("./pkg/strafe_tutorial.d.ts", "./pkg/strafe_tutorial.d.ts"),
     ("./pkg/strafe_tutorial.js", "./pkg/strafe_tutorial.js"),
     ("./static/index.html", "./index.html")]
    "./pkg/strafe_tutorial_bg.wasm" "./pkg/strafe_tutorial_bg.wasm"
    (by decide) (by decide) (by decide) (by decide) (by decide)

/-- C7: the environment-variable invocation mode (modelled from the spec,
see `runEnv`) reads the fixed variable, performs no validation, splices the
raw value into the output filename, and fails with a non-zero exit and no
file when the variable is unset. -/
theorem env_variant_unvalidated (env : List (String × String)) (fs : FS) (v : String) :
    (env.find? (fun e => e.1 == "TRAVIS_TAG") = none →
      (runEnv env fs).exitCode = 1 ∧ (runEnv env fs).stdout = [] ∧
      (runEnv env fs).fs = fs) ∧
    ((env.find? (fun e => e.1 == "TRAVIS_TAG")).map (fun e => e.2) = some v →
      lookupFS fs (DST_PATH v) = none →
      (∀ p ∈ manifest, (readBytes fs p.1).isSome) →
      (runEnv env fs).exitCode = 0 ∧ (runEnv env fs).stdout = [] ∧
      lookupFS (runEnv env fs).fs (DST_PATH v)
        = some (FData.zip (manifest.map (entryOf fs)))) := by
  constructor
  · intro h
    simp [runEnv, h]
  · intro h hno hsrc
    have hrun : runEnv env fs = createArchive v fs := by
      simp only [runEnv, h]
    rw [hrun, createArchive_ok v fs hno hsrc]
    exact ⟨rfl, rfl, lookupFS_cons_self fs _ _⟩

/-- C7 witness: unset variable fails; the raw tag `v1.2-rc1`, which does not
match the command-line pattern, is interpolated without validation. -/
theorem env_variant_unvalidated_witness :
    (runEnv [] demoFS).exitCode = 1 ∧
    (runEnv [("TRAVIS_TAG", "v1.2-rc1")] demoFS).exitCode = 0 ∧
    lookupFS (runEnv [("TRAVIS_TAG", "v1.2-rc1")] demoFS).fs (DST_PATH "v1.2-rc1")
      = some (FData.zip (manifest.map (entryOf demoFS))) ∧
    fullmatchVer "v1.2-rc1" = false := by
  refine ⟨((env_variant_unvalidated [] demoFS "x").1 (by decide)).1, ?_, ?_, by decide⟩
  · exact ((env_variant_unvalidated [("TRAVIS_TAG", "v1.2-rc1")] demoFS "v1.2-rc1").2
      (by decide) (by decide) (by decide)).1
  · exact ((env_variant_unvalidated [("TRAVIS_TAG", "v1.2-rc1")] demoFS "v1.2-rc1").2
      (by decide) (by decide) (by decide)).2.2

/-- C8: with more than one argument after the script name
(`len(sys.argv) != 2`), the script prints the usage message and exits 1
without creating any file, whatever the first argument is. -/
theorem extra_arguments_print_usage (argv : List String) (fs : FS)
    (h : 3 ≤ argv.length) :
    run argv fs = Outcome.mk 1 [usageMessage] fs := by
  rcases argv with _ | ⟨a, _ | ⟨b, _ | ⟨c, rest⟩⟩⟩
  · simp at h
  · simp at h
  · simp at h
  · rfl

/-- C8 witness: a valid version string plus an extra argument still gets the
usage message. -/
theorem extra_arguments_print_usage_witness :
    run ["package.py", "1.2.3", "extra"] demoFS = Outcome.mk 1 [usageMessage] demoFS ∧
    fullmatchVer "1.2.3" = true :=
  ⟨extra_arguments_print_usage ["package.py", "1.2.3", "extra"] demoFS (by decide),
    by decide⟩

/-- C9: the stored entry names are the manifest arcnames normalized without
the leading `./` — `LICENSE`, ..., `index.html` — and not the literal
`./`-prefixed paths passed to `write`. -/
theorem archive_entry_names_normalized (s v : String) (fs : FS)
    (hv : fullmatchVer v = true)
    (hno : lookupFS fs (DST_PATH v) = none)
    (hsrc : ∀ p ∈ manifest, (readBytes fs p.1).isSome) :
    (archiveEntries (run [s, v] fs) (DST_PATH v)).map ZipEntry.arcname
      = manifest.map (fun p => normalizeArcname p.2) ∧
    (archiveEntries (run [s, v] fs) (DST_PATH v)).map ZipEntry.arcname
      = ["LICENSE", "README.md", "pkg/strafe_tutorial_bg.d.ts",
         "pkg/strafe_tutorial_bg.wasm", "pkg/strafe_tutorial.d.ts",
         "pkg/strafe_tutorial.js", "index.html"] ∧
    ¬ "./LICENSE" ∈ (archiveEntries (run [s, v] fs) (DST_PATH v)).map ZipEntry.arcname := by
  rw [archiveEntries_run_valid s v fs hv hno hsrc]
  refine ⟨entry_names fs, entry_names_concrete fs, ?_⟩
  rw [entry_names_concrete fs]
  decide

/-- C9 witness: the concrete run on `demoFS`. -/
theorem archive_entry_names_normalized_witness :
    (archiveEntries (run ["package.py", "1.0.0"] demoFS) (DST_PATH "1.0.0")).map
        ZipEntry.arcname
      = manifest.map (fun p => normalizeArcname p.2) ∧
    (archiveEntries (run ["package.py", "1.0.0"] demoFS) (DST_PATH "1.0.0")).map
        ZipEntry.arcname
      = ["LICENSE", "README.md", "pkg/strafe_tutorial_bg.d.ts",
         "pkg/strafe_tutorial_bg.wasm", "pkg/strafe_tutorial.d.ts",
         "pkg/strafe_tutorial.js", "index.html"] ∧
    ¬ "./LICENSE" ∈ (archiveEntries (run ["package.py", "1.0.0"] demoFS)
        (DST_PATH "1.0.0")).map ZipEntry.arcname :=
  archive_entry_names_normalized "package.py" "1.0.0" demoFS
    (by decide) (by decide) (by decide)

/-- C10: the entry listing is the fixed manifest order on every successful
run — `LICENSE` first, then `README.md`, the four `pkg/` files, and
`index.html` last — and two successful runs over sources with identical
contents produce identical entry lists. -/
theorem archive_entry_order_deterministic (s v s2 v2 : String) (fs fs2 : FS)
    (hv : fullmatchVer v = true)
    (hno : lookupFS fs (DST_PATH v) = none)
    (hsrc : ∀ p ∈ manifest, (readBytes fs p.1).isSome)
    (hv2 : fullmatchVer v2 = true)
    (hno2 : lookupFS fs2 (DST_PATH v2) = none)
    (hsrc2 : ∀ p ∈ manifest, (readBytes fs2 p.1).isSome)
    (hsame : ∀ p ∈ manifest, readBytes fs p.1 = readBytes fs2 p.1) :
    (archiveEntries (run [s, v] fs) (DST_PATH v)).map ZipEntry.arcname
      = ["LICENSE", "README.md", "pkg/strafe_tutorial_bg.d.ts",
         "pkg/strafe_tutorial_bg.wasm", "pkg/strafe_tutorial.d.ts",
         "pkg/strafe_tutorial.js", "index.html"] ∧
    archiveEntries (run [s, v] fs) (DST_PATH v)
      = archiveEntries (run [s2, v2] fs2) (DST_PATH v2) := by
  rw [archiveEntries_run_valid s v fs hv hno hsrc,
    archiveEntries_run_valid s2 v2 fs2 hv2 hno2 hsrc2]
  refine ⟨entry_names_concrete fs, ?_⟩
  apply List.map_congr_left
  intro p hp
  simp [entryOf, hsame p hp]

/-- C10 witness: two runs with different script names and version strings
over the same source contents agree entry for entry. -/
theorem archive_entry_order_deterministic_witness :
    (archiveEntries (run ["package.py", "1.0.0"] demoFS) (DST_PATH "1.0.0")).map
        ZipEntry.arcname
      = ["LICENSE", "README.md", "pkg/strafe_tutorial_bg.d.ts",
         "pkg/strafe_tutorial_bg.wasm", "pkg/strafe_tutorial.d.ts",
         "pkg/strafe_tutorial.js", "index.html"] ∧
    archiveEntries (run ["package.py", "1.0.0"] demoFS) (DST_PATH "1.0.0")
      = archiveEntries (run ["pkg.py", "2.0.0"] demoFS) (DST_PATH "2.0.0") :=
  archive_entry_order_deterministic "package.py" "1.0.0" "pkg.py" "2.0.0" demoFS demoFS
    (by decide) (by decide) (by decide) (by decide) (by decide) (by decide)
    (fun p _ => rfl)

end PackagePy
